import Mathlib

/-!
Verification development for the `meme_echo` plugin (`src/main.py`): a
content-addressed image registry (MD5 digests), with a durable index
(digest → filename), a durable alias table (alias → digest), an in-memory
"awaiting capture" session map, and group-message handlers.

Python dictionaries are embedded as insertion-ordered association lists;
dictionary assignment is `dset` (replace in place, else append) and
`dict.pop` is `dpop`.  The filesystem directory holding the blobs is an
association list from filename to byte content.  Byte strings are
`List Nat` (each entry a byte).  `hashlib.md5(...).hexdigest()` (Python
standard library) is embedded as a full MD5 implementation over byte
lists.  Wall-clock time is an explicit `Nat` parameter.
-/

namespace MemeEcho

/-- Python `str.upper()` restricted to how it acts on ASCII text
(`Char.toUpper` uppercases exactly the ASCII letters). -/
def pyUpper (s : String) : String :=
  String.mk (s.toList.map Char.toUpper)

/-- Python `str.lower()` restricted to ASCII. -/
def pyLower (s : String) : String :=
  String.mk (s.toList.map Char.toLower)

/-- Python `str.strip()`: drop whitespace from both ends. -/
def pyStrip (s : String) : String :=
  String.mk (((s.toList.dropWhile Char.isWhitespace).reverse.dropWhile
      Char.isWhitespace).reverse)

/-- Python dictionary assignment `m[k] = v` on an insertion-ordered
association list: replace the entry for `k` in place, else append. -/
def dset {κ ν : Type} [BEq κ] : List (κ × ν) → κ → ν → List (κ × ν)
  | [], k, v => [(k, v)]
  | p :: m, k, v => if p.1 == k then (k, v) :: m else p :: dset m k v

/-- Python `m.pop(k, None)`: remove the entry for `k` (association lists
built by `dset` hold at most one entry per key). -/
def dpop {κ ν : Type} [BEq κ] (m : List (κ × ν)) (k : κ) : List (κ × ν) :=
  m.filter (fun p => !(p.1 == k))

/-! ### MD5 (embedding of `hashlib.md5(b).hexdigest()`) -/

def mask32 : Nat := 4294967295

/-- 32-bit left rotation. -/
def rotl32 (x s : Nat) : Nat :=
  ((x <<< s) ||| (x >>> (32 - s))) &&& mask32

/-- The 64 MD5 sine-derived round constants. -/
def md5K : List Nat :=
  [0xd76aa478, 0xe8c7b756, 0x242070db, 0xc1bdceee,
   0xf57c0faf, 0x4787c62a, 0xa8304613, 0xfd469501,
   0x698098d8, 0x8b44f7af, 0xffff5bb1, 0x895cd7be,
   0x6b901122, 0xfd987193, 0xa679438e, 0x49b40821,
   0xf61e2562, 0xc040b340, 0x265e5a51, 0xe9b6c7aa,
   0xd62f105d, 0x02441453, 0xd8a1e681, 0xe7d3fbc8,
   0x21e1cde6, 0xc33707d6, 0xf4d50d87, 0x455a14ed,
   0xa9e3e905, 0xfcefa3f8, 0x676f02d9, 0x8d2a4c8a,
   0xfffa3942, 0x8771f681, 0x6d9d6122, 0xfde5380c,
   0xa4beea44, 0x4bdecfa9, 0xf6bb4b60, 0xbebfbc70,
   0x289b7ec6, 0xeaa127fa, 0xd4ef3085, 0x04881d05,
   0xd9d4d039, 0xe6db99e5, 0x1fa27cf8, 0xc4ac5665,
   0xf4292244, 0x432aff97, 0xab9423a7, 0xfc93a039,
   0x655b59c3, 0x8f0ccc92, 0xffeff47d, 0x85845dd1,
   0x6fa87e4f, 0xfe2ce6e0, 0xa3014314, 0x4e0811a1,
   0xf7537e82, 0xbd3af235, 0x2ad7d2bb, 0xeb86d391]

/-- The 64 MD5 per-round shift amounts. -/
def md5S : List Nat :=
  [7, 12, 17, 22, 7, 12, 17, 22, 7, 12, 17, 22, 7, 12, 17, 22,
   5, 9, 14, 20, 5, 9, 14, 20, 5, 9, 14, 20, 5, 9, 14, 20,
   4, 11, 16, 23, 4, 11, 16, 23, 4, 11, 16, 23, 4, 11, 16, 23,
   6, 10, 15, 21, 6, 10, 15, 21, 6, 10, 15, 21, 6, 10, 15, 21]

/-- The 64-bit message length in bits, little-endian, as 8 bytes. -/
def le8 (n : Nat) : List Nat :=
  [n &&& 255, (n >>> 8) &&& 255, (n >>> 16) &&& 255, (n >>> 24) &&& 255,
   (n >>> 32) &&& 255, (n >>> 40) &&& 255, (n >>> 48) &&& 255,
   (n >>> 56) &&& 255]

/-- MD5 padding: append `0x80`, zero-pad to 56 mod 64, append the
bit-length little-endian. -/
def md5pad (msg : List Nat) : List Nat :=
  msg.map (· % 256) ++ [128] ++
    List.replicate ((119 - (msg.length % 64)) % 64) 0 ++
    le8 (msg.length * 8)

/-- Split a byte list into 64-byte blocks. -/
def chunks : List Nat → List (List Nat)
  | [] => []
  | x :: xs => (x :: xs.take 63) :: chunks (xs.drop 63)
termination_by l => l.length
decreasing_by
  simp only [List.length_drop, List.length_cons]
  omega

/-- The `g`-th little-endian 32-bit word of a 64-byte block. -/
def mword (blk : List Nat) (g : Nat) : Nat :=
  blk.getD (4 * g) 0 + 256 * blk.getD (4 * g + 1) 0 +
    65536 * blk.getD (4 * g + 2) 0 + 16777216 * blk.getD (4 * g + 3) 0

/-- One MD5 round: state `(a, b, c, d)`, round index `i`. -/
def md5step (blk : List Nat) (st : Nat × Nat × Nat × Nat) (i : Nat) :
    Nat × Nat × Nat × Nat :=
  (st.2.2.2,
   (st.2.1 + rotl32
      ((st.1 +
        (if i < 16 then (st.2.1 &&& st.2.2.1) |||
            ((st.2.1 ^^^ mask32) &&& st.2.2.2)
         else if i < 32 then (st.2.2.2 &&& st.2.1) |||
            ((st.2.2.2 ^^^ mask32) &&& st.2.2.1)
         else if i < 48 then st.2.1 ^^^ st.2.2.1 ^^^ st.2.2.2
         else st.2.2.1 ^^^ (st.2.1 ||| (st.2.2.2 ^^^ mask32))) +
        md5K.getD i 0 +
        mword blk
          (if i < 16 then i
           else if i < 32 then (5 * i + 1) % 16
           else if i < 48 then (3 * i + 5) % 16
           else (7 * i) % 16)) &&& mask32)
      (md5S.getD i 0)) &&& mask32,
   st.2.1, st.2.2.1)

/-- Process one 64-byte block. -/
def md5block (st : Nat × Nat × Nat × Nat) (blk : List Nat) :
    Nat × Nat × Nat × Nat :=
  ((st.1 + ((List.range 64).foldl (md5step blk) st).1) &&& mask32,
   (st.2.1 + ((List.range 64).foldl (md5step blk) st).2.1) &&& mask32,
   (st.2.2.1 + ((List.range 64).foldl (md5step blk) st).2.2.1) &&& mask32,
   (st.2.2.2 + ((List.range 64).foldl (md5step blk) st).2.2.2) &&& mask32)

def md5init : Nat × Nat × Nat × Nat :=
  (0x67452301, 0xefcdab89, 0x98badcfe, 0x10325476)

/-- Lowercase hex digit. -/
def hexCharLower (n : Nat) : Char :=
  if n < 10 then Char.ofNat (48 + n) else Char.ofNat (87 + n)

def byteHex (b : Nat) : List Char :=
  [hexCharLower (b / 16 % 16), hexCharLower (b % 16)]

/-- A 32-bit word as 8 lowercase hex characters, little-endian byte order. -/
def wordHexLE (w : Nat) : List Char :=
  byteHex (w &&& 255) ++ byteHex ((w >>> 8) &&& 255) ++
    byteHex ((w >>> 16) &&& 255) ++ byteHex ((w >>> 24) &&& 255)

/-- `hashlib.md5(msg).hexdigest()`: the 32-character lowercase hex MD5
digest of a byte string. -/
def md5_hexdigest (msg : List Nat) : String :=
  String.mk
    (wordHexLE ((chunks (md5pad msg)).foldl md5block md5init).1 ++
     wordHexLE ((chunks (md5pad msg)).foldl md5block md5init).2.1 ++
     wordHexLE ((chunks (md5pad msg)).foldl md5block md5init).2.2.1 ++
     wordHexLE ((chunks (md5pad msg)).foldl md5block md5init).2.2.2)

/-- `md5_bytes_upper` from `src/main.py`:
`hashlib.md5(b).hexdigest().upper()`. -/
def md5_bytes_upper (b : List Nat) : String :=
  pyUpper (md5_hexdigest b)

/-! ### Path stems (embedding of `pathlib.Path(f).stem` / `.name`) -/

/-- Split a character list on `/` (the separator splitting used by
`pathlib.PurePath`). -/
def splitSlash : List Char → List (List Char)
  | [] => [[]]
  | c :: rest =>
    if c == '/' then [] :: splitSlash rest
    else
      match splitSlash rest with
      | [] => [[c]]
      | g :: gs => (c :: g) :: gs

/-- `pathlib.Path(f).name`: the last nonempty `/`-separated component. -/
def nameOf (f : String) : String :=
  match ((splitSlash f.toList).filter (fun c => c ≠ [])).getLast? with
  | some n => String.mk n
  | none => ""

/-- Indices of the `.` characters of a character list. -/
def dotIdxs (cs : List Char) : List Nat :=
  (List.range cs.length).filter (fun i => cs.getD i ' ' == '.')

/-- `pathlib.Path(f).stem`: the final component without its last suffix;
a dot at position 0 or at the very end does not begin a suffix. -/
def stemOf (f : String) : String :=
  match (dotIdxs (nameOf f).toList).getLast? with
  | some i =>
      if 0 < i ∧ i < (nameOf f).toList.length - 1 then
        String.mk ((nameOf f).toList.take i)
      else nameOf f
  | none => nameOf f

/-! ### Registry state (the mutable fields of the `MemeEcho` plugin object,
plus the two durable JSON documents) -/

/-- The plugin's mutable state: the blob directory (`self.meme_dir`, as
filename → byte content), `self.index`, `self.alias`, `self.awaiting`
((group_id, user_id) → expiry timestamp), and the persisted contents of
`index.json` (`diskIndex`) and `alias.json` (`diskAlias`);
`_save_index` / `_save_alias` copy the in-memory mapping to disk. -/
structure MemeState where
  memeDir : List (String × List Nat)
  index : List (String × String)
  aliasMap : List (String × String)
  awaiting : List ((String × String) × Nat)
  diskIndex : List (String × String)
  diskAlias : List (String × String)
deriving DecidableEq

/-- The hex-character set used by `_resolve_key`: the characters of the
source's string `"0123456789abcdefABCDEF"`. -/
def hexChars : List Char := "0123456789abcdefABCDEF".toList

/-- The digest-shape test of `_resolve_key`:
`len(s) == 32 and all(c in "0123456789abcdefABCDEF" for c in s)`. -/
def is32hex (s : String) : Bool :=
  s.toList.length == 32 && s.toList.all (fun c => hexChars.contains c)

/-- `_resolve_key`: a 32-hex-character query is self-resolving (returned
uppercased); otherwise the trimmed query is looked up in the alias map. -/
def resolve_key (st : MemeState) (key_or_alias : String) : Option String :=
  if is32hex (pyStrip key_or_alias) then some (pyUpper (pyStrip key_or_alias))
  else List.lookup (pyStrip key_or_alias) st.aliasMap

/-- `_reverse_alias`: first alias mapping to the given (uppercased) key. -/
def reverse_alias (al : List (String × String)) (key0 : String) :
    Option String :=
  (al.find? (fun p => p.2 == pyUpper key0)).map (fun p => p.1)

/-- `ext.startswith(".")`. -/
def startsDot (s : String) : Bool :=
  match s.toList with
  | '.' :: _ => true
  | _ => false

/-- Extension normalization inside `_save_bytes_as_meme`:
`ext = (ext or ".png").lower(); if not ext.startswith("."): ext = "." + ext`. -/
def norm_ext (ext : String) : String :=
  if startsDot (pyLower (if ext = "" then ".png" else ext)) then
    pyLower (if ext = "" then ".png" else ext)
  else "." ++ pyLower (if ext = "" then ".png" else ext)

/-- `_save_bytes_as_meme`: key = uppercase MD5 of the bytes; the blob file
`key + ext` is written only if not already present; the index entry is set
and persisted; the key is returned unconditionally. -/
def save_bytes_as_meme (st : MemeState) (data : List Nat) (ext : String) :
    String × MemeState :=
  (md5_bytes_upper data,
   { st with
      memeDir :=
        if (List.lookup (md5_bytes_upper data ++ norm_ext ext)
              st.memeDir).isSome then st.memeDir
        else st.memeDir ++ [(md5_bytes_upper data ++ norm_ext ext, data)],
      index := dset st.index (md5_bytes_upper data)
        (md5_bytes_upper data ++ norm_ext ext),
      diskIndex := dset st.index (md5_bytes_upper data)
        (md5_bytes_upper data ++ norm_ext ext) })

/-- `_delete_key`: uppercase the key; a missing (or empty) index entry
returns `False`; otherwise delete the blob best-effort, remove and persist
the index entry, remove every alias pointing at the key and persist the
alias map if any were removed, and return `True`. -/
def delete_key (st : MemeState) (key0 : String) : Bool × MemeState :=
  match List.lookup (pyUpper key0) st.index with
  | none => (false, st)
  | some name =>
    if name = "" then (false, st)
    else
      (true,
       { st with
          memeDir := dpop st.memeDir name,
          index := dpop st.index (pyUpper key0),
          diskIndex := dpop st.index (pyUpper key0),
          aliasMap := st.aliasMap.filter (fun p => !(p.2 == pyUpper key0)),
          diskAlias :=
            if (st.aliasMap.filter (fun p => p.2 == pyUpper key0)).isEmpty then
              st.diskAlias
            else st.aliasMap.filter (fun p => !(p.2 == pyUpper key0)) })

/-- One step of `_rebuild_index`: a directory entry is indexed iff the
uppercased stem of its filename has exactly 32 characters. -/
def rebuild_step (idx : List (String × String)) (p : String × List Nat) :
    List (String × String) :=
  if (pyUpper (stemOf p.1)).toList.length == 32 then
    dset idx (pyUpper (stemOf p.1)) p.1
  else idx

/-- `_rebuild_index`: clear the index, scan the blob directory (every
model entry is a plain file), index each qualifying filename. -/
def rebuild_index (dir : List (String × List Nat)) : List (String × String) :=
  dir.foldl rebuild_step []

/-! ### Command and event handlers.  Each `yield event.plain_result(...)` /
`yield event.chain_result(...)` of the source is embedded as a structured
output value carrying the data interpolated into the message. -/

/-- The distinct user-visible results the handlers emit. -/
inductive Out : Type where
  | armPrompt : Out
  | addedOk : String → Option String → Out
  | addFail : String → Out
  | nameNotFound : String → Out
  | nameSet : String → String → Out
  | showNotFound : String → Out
  | showInfo : String → Option String → String → Out
  | delNotFound : String → Out
  | delOk : String → String → Out
  | delFail : String → Out
  | reloadDone : Nat → Nat → Out
  | repost : String → Out
deriving DecidableEq

/-- `/meme add` with no image attached (`meme_cmd`, `action == "add"`,
no image): arm the capture session at `now + 60` and prompt. -/
def meme_add_arm (st : MemeState) (gu : String × String) (now : Nat) :
    MemeState × Out :=
  ({ st with awaiting := dset st.awaiting gu (now + 60) }, Out.armPrompt)

/-- `/meme name <KEY> <alias>` (`meme_cmd`, `action == "name"`): the key
argument is trimmed and uppercased; an absent key reports not-found;
otherwise the alias is bound (overwriting) and persisted.  `keyArg` is
`parts[2]` and `aliasArg` is `" ".join(parts[3:])`. -/
def meme_name (st : MemeState) (keyArg aliasArg : String) :
    MemeState × Out :=
  if (List.lookup (pyUpper (pyStrip keyArg)) st.index) = none then
    (st, Out.nameNotFound (pyUpper (pyStrip keyArg)))
  else
    ({ st with
        aliasMap := dset st.aliasMap (pyStrip aliasArg)
          (pyUpper (pyStrip keyArg)),
        diskAlias := dset st.aliasMap (pyStrip aliasArg)
          (pyUpper (pyStrip keyArg)) },
     Out.nameSet (pyStrip aliasArg) (pyUpper (pyStrip keyArg)))

/-- `/meme show <query>` (`meme_cmd`, `action == "show"`): resolve the
trimmed query; an unresolved (or falsy) key reports not-found; otherwise
report the key, its first reverse alias, and `self.index.get(key, "")`. -/
def meme_show (st : MemeState) (q0 : String) : Out :=
  match resolve_key st (pyStrip q0) with
  | none => Out.showNotFound (pyStrip q0)
  | some key =>
    if key = "" then Out.showNotFound (pyStrip q0)
    else Out.showInfo key (reverse_alias st.aliasMap key)
      ((List.lookup key st.index).getD "")

/-- `/meme del <query>` (`meme_cmd`, `action == "del"`): resolve the
trimmed query; unresolved reports not-found; otherwise `_delete_key`
decides between the success and the failure message. -/
def meme_del (st : MemeState) (q0 : String) : MemeState × Out :=
  match resolve_key st (pyStrip q0) with
  | none => (st, Out.delNotFound (pyStrip q0))
  | some key =>
    if key = "" then (st, Out.delNotFound (pyStrip q0))
    else if (delete_key st key).1 then
      ((delete_key st key).2, Out.delOk (pyStrip q0) key)
    else ((delete_key st key).2, Out.delFail (pyStrip q0))

/-- `/meme reload` (`meme_cmd`, `action == "reload"`): rebuild the index
from the directory scan (persisting it), drop every alias whose digest is
no longer indexed, persist the alias map if any were dropped, and report
the index size and the pruned-alias count. -/
def meme_reload (st : MemeState) : MemeState × Out :=
  ({ st with
      index := rebuild_index st.memeDir,
      diskIndex := rebuild_index st.memeDir,
      aliasMap := st.aliasMap.filter
        (fun p => !(List.lookup p.2 (rebuild_index st.memeDir)).isNone),
      diskAlias :=
        if (st.aliasMap.filter
              (fun p => (List.lookup p.2 (rebuild_index st.memeDir)).isNone)).isEmpty
        then st.diskAlias
        else st.aliasMap.filter
          (fun p => !(List.lookup p.2 (rebuild_index st.memeDir)).isNone) },
   Out.reloadDone (rebuild_index st.memeDir).length
     (st.aliasMap.filter
       (fun p => (List.lookup p.2 (rebuild_index st.memeDir)).isNone)).length)

/-- An inbound image segment: its `file` identifier string, and the byte
content plus extension that `_add_from_image_segment` would obtain from
its local path or by downloading its URL (`none` when neither source
yields data — the external download boundary of the spec). -/
structure ImageSeg where
  file : String
  data : Option (List Nat × String)
deriving DecidableEq

/-- A message segment: an image segment or any other component. -/
inductive Seg : Type where
  | image : ImageSeg → Seg
  | other : Seg
deriving DecidableEq

/-- An inbound group message event: the (group_id, user_id) pair and the
message segments. -/
structure GEvent where
  gu : String × String
  segs : List Seg
deriving DecidableEq

/-- `_extract_first_image`: the first image segment of the message. -/
def extract_first_image : List Seg → Option ImageSeg
  | [] => none
  | Seg.image img :: _ => some img
  | Seg.other :: rest => extract_first_image rest

/-- `_add_from_image_segment`: with resolvable bytes, ingest them and
return `(True, key)`; otherwise `(False, error-message)` with the state
unchanged (path reading and URL download are external collaborators,
abstracted into `img.data`). -/
def add_from_image_segment (st : MemeState) (img : ImageSeg) :
    (Bool × String) × MemeState :=
  match img.data with
  | some (bytes, ext) =>
    ((true, (save_bytes_as_meme st bytes ext).1),
     (save_bytes_as_meme st bytes ext).2)
  | none => ((false, "no usable image source"), st)

/-- The armed-capture branch of `on_group_message`: attempt the ingest,
consume the session entry regardless of success, report, and stop the
event. -/
def capture_branch (st : MemeState) (gu : String × String) (img : ImageSeg) :
    MemeState × List Out × Bool :=
  ({ (add_from_image_segment st img).2 with
      awaiting := dpop (add_from_image_segment st img).2.awaiting gu },
   (if (add_from_image_segment st img).1.1 then
      [Out.addedOk (add_from_image_segment st img).1.2
        (reverse_alias
          ({ (add_from_image_segment st img).2 with
              awaiting :=
                dpop (add_from_image_segment st img).2.awaiting gu }).aliasMap
          (add_from_image_segment st img).1.2)]
    else [Out.addFail (add_from_image_segment st img).1.2]),
   true)

/-- The repost scan of `on_group_message`: for each image segment, look up
the uppercased stem of its `file` identifier directly in the index; a
falsy filename or a missing blob file skips the segment; the first hit is
reposted. -/
def repost_scan (index : List (String × String))
    (dir : List (String × List Nat)) : List Seg → Option String
  | [] => none
  | Seg.other :: rest => repost_scan index dir rest
  | Seg.image img :: rest =>
    match List.lookup (pyUpper (stemOf img.file)) index with
    | none => repost_scan index dir rest
    | some name =>
      if name = "" then repost_scan index dir rest
      else if (List.lookup name dir).isSome then some name
      else repost_scan index dir rest

/-- The non-capture tail of `on_group_message`: repost the first index hit
(stopping the event), else fall through with no output. -/
def repost_branch (st : MemeState) (segs : List Seg) :
    MemeState × List Out × Bool :=
  match repost_scan st.index st.memeDir segs with
  | some name => (st, [Out.repost name], true)
  | none => (st, [], false)

/-- `on_group_message`: consult the awaiting map for the sender.  An armed
(`exp` truthy), unexpired entry together with an image in the message
takes the capture branch; armed-unexpired without an image falls through
(entry kept); armed-expired drops the stale entry and falls through;
otherwise the plain repost scan runs.  The result is the new state, the
emitted outputs, and whether `event.stop_event()` was called. -/
def on_group_message (st : MemeState) (ev : GEvent) (now : Nat) :
    MemeState × List Out × Bool :=
  match List.lookup ev.gu st.awaiting with
  | some e =>
    if e ≠ 0 ∧ now ≤ e then
      match extract_first_image ev.segs with
      | some img => capture_branch st ev.gu img
      | none => repost_branch st ev.segs
    else if e ≠ 0 ∧ e < now then
      repost_branch { st with awaiting := dpop st.awaiting ev.gu } ev.segs
    else repost_branch st ev.segs
  | none => repost_branch st ev.segs

/-! ### Association-list lemmas -/

theorem beq_false_of_ne {κ : Type} [BEq κ] [LawfulBEq κ] {a b : κ}
    (h : a ≠ b) : (a == b) = false := by
  cases hab : a == b
  · rfl
  · exact absurd (eq_of_beq hab) h

theorem lookup_cons {κ ν : Type} [BEq κ] [LawfulBEq κ] [DecidableEq κ]
    (a : κ) (b : ν) (es : List (κ × ν)) (k : κ) :
    List.lookup k ((a, b) :: es) =
      if k = a then some b else List.lookup k es := by
  by_cases h : k = a
  · simp [List.lookup, h]
  · simp [List.lookup, beq_false_of_ne h, h]

theorem lookup_dset {κ ν : Type} [BEq κ] [LawfulBEq κ] [DecidableEq κ]
    (m : List (κ × ν)) (k k' : κ) (v : ν) :
    List.lookup k (dset m k' v) =
      if k = k' then some v else List.lookup k m := by
  induction m with
  | nil =>
    simp only [dset]
    rw [lookup_cons]
  | cons p m ih =>
    obtain ⟨a, b⟩ := p
    by_cases h1 : a = k'
    · subst h1
      by_cases h2 : k = a <;> simp [dset, lookup_cons, h2]
    · have hd : dset ((a, b) :: m) k' v = (a, b) :: dset m k' v := by
        simp [dset, beq_false_of_ne h1]
      rw [hd, lookup_cons, ih, lookup_cons]
      by_cases h2 : k = a
      · have h3 : ¬ k = k' := fun hh => h1 ((h2.symm.trans hh))
        rw [if_pos h2, if_neg h3, if_pos h2]
      · rw [if_neg h2]
        by_cases h3 : k = k'
        · rw [if_pos h3, if_pos h3]
        · rw [if_neg h3, if_neg h3, if_neg h2]

theorem dset_dset {κ ν : Type} [BEq κ] [LawfulBEq κ] [DecidableEq κ]
    (m : List (κ × ν)) (k : κ) (v : ν) :
    dset (dset m k v) k v = dset m k v := by
  induction m with
  | nil => simp [dset]
  | cons p m ih =>
    by_cases h : p.1 = k
    · simp [dset, h]
    · simp [dset, beq_false_of_ne h, ih]

theorem lookup_append_single {κ ν : Type} [BEq κ] [LawfulBEq κ]
    [DecidableEq κ] (l : List (κ × ν)) (k : κ) (v : ν) :
    (List.lookup k (l ++ [(k, v)])).isSome = true := by
  induction l with
  | nil => simp [lookup_cons]
  | cons p l ih =>
    obtain ⟨a, b⟩ := p
    rw [List.cons_append, lookup_cons]
    by_cases h : k = a
    · simp [h]
    · simp [h, ih]

theorem lookup_dpop_self {κ ν : Type} [BEq κ] [LawfulBEq κ] [DecidableEq κ]
    (m : List (κ × ν)) (k : κ) :
    List.lookup k (dpop m k) = none := by
  induction m with
  | nil => rfl
  | cons p m ih =>
    obtain ⟨a, b⟩ := p
    simp only [dpop] at ih ⊢
    rw [List.filter_cons]
    by_cases h : a = k
    · have hb : (!(((a, b) : κ × ν).1 == k)) = false := by simp [h]
      simp only [hb, Bool.false_eq_true, if_false]
      exact ih
    · have hb : (!(((a, b) : κ × ν).1 == k)) = true := by
        simp [beq_false_of_ne h]
      simp only [hb, if_true]
      rw [lookup_cons, if_neg (fun hh => h hh.symm)]
      exact ih

theorem lookup_mem {κ ν : Type} [BEq κ] [LawfulBEq κ] [DecidableEq κ]
    (m : List (κ × ν)) (k : κ) (v : ν)
    (h : List.lookup k m = some v) : (k, v) ∈ m := by
  induction m with
  | nil => exact Option.noConfusion h
  | cons p m ih =>
    obtain ⟨a, b⟩ := p
    rw [lookup_cons] at h
    by_cases hk : k = a
    · rw [if_pos hk] at h
      have hbv : b = v := by injection h
      subst hk
      subst hbv
      exact List.mem_cons_self _ _
    · rw [if_neg hk] at h
      exact List.mem_cons_of_mem _ (ih h)

theorem lookup_eq_none_of_forall {κ ν : Type} [BEq κ] [LawfulBEq κ]
    [DecidableEq κ] (m : List (κ × ν)) (k : κ)
    (h : ∀ p ∈ m, p.1 ≠ k) :
    List.lookup k m = none := by
  induction m with
  | nil => rfl
  | cons p m ih =>
    obtain ⟨a, b⟩ := p
    rw [lookup_cons,
      if_neg (fun hh => h (a, b) (List.mem_cons_self _ _) hh.symm)]
    exact ih (fun q hq => h q (List.mem_cons_of_mem _ hq))

theorem lookup_filter_of_unique {κ ν : Type} [BEq κ] [LawfulBEq κ]
    [DecidableEq κ] [BEq ν] [LawfulBEq ν]
    (m : List (κ × ν)) (A : κ) (D : ν)
    (hU : m.Pairwise (fun p q => p.1 ≠ q.1))
    (hA : List.lookup A m = some D) :
    List.lookup A (m.filter (fun p => !(p.2 == D))) = none := by
  induction m with
  | nil => exact Option.noConfusion hA
  | cons p m ih =>
    obtain ⟨a, b⟩ := p
    rw [List.pairwise_cons] at hU
    obtain ⟨hhead, htail⟩ := hU
    rw [lookup_cons] at hA
    rw [List.filter_cons]
    by_cases hk : A = a
    · rw [if_pos hk] at hA
      have hbD : b = D := by injection hA
      have hcond : (!(((a, b) : κ × ν).2 == D)) = false := by simp [hbD]
      simp only [hcond, Bool.false_eq_true, if_false]
      apply lookup_eq_none_of_forall
      intro q hq
      exact fun hh =>
        hhead q (List.mem_of_mem_filter hq) ((hh.trans hk).symm)
    · rw [if_neg hk] at hA
      by_cases hb : b = D
      · have hcond : (!(((a, b) : κ × ν).2 == D)) = false := by simp [hb]
        simp only [hcond, Bool.false_eq_true, if_false]
        exact ih htail hA
      · have hcond : (!(((a, b) : κ × ν).2 == D)) = true := by
          simp [beq_false_of_ne hb]
        simp only [hcond, if_true]
        rw [lookup_cons, if_neg hk]
        exact ih htail hA

theorem length_filter_not {α : Type} (l : List α) (p : α → Bool) :
    (l.filter p).length + (l.filter (fun x => !(p x))).length = l.length := by
  induction l with
  | nil => simp
  | cons a l ih =>
    cases h : p a <;> simp [List.filter_cons, h] <;> omega

theorem MemeState.ext' {a b : MemeState}
    (h1 : a.memeDir = b.memeDir) (h2 : a.index = b.index)
    (h3 : a.aliasMap = b.aliasMap) (h4 : a.awaiting = b.awaiting)
    (h5 : a.diskIndex = b.diskIndex) (h6 : a.diskAlias = b.diskAlias) :
    a = b := by
  cases a; cases b; simp_all

/-! ### Projection equations for `save_bytes_as_meme` -/

theorem save_fst (st : MemeState) (data : List Nat) (ext : String) :
    (save_bytes_as_meme st data ext).1 = md5_bytes_upper data := rfl

theorem save_memeDir (st : MemeState) (data : List Nat) (ext : String) :
    (save_bytes_as_meme st data ext).2.memeDir =
      if (List.lookup (md5_bytes_upper data ++ norm_ext ext)
            st.memeDir).isSome then st.memeDir
      else st.memeDir ++ [(md5_bytes_upper data ++ norm_ext ext, data)] := rfl

theorem save_index (st : MemeState) (data : List Nat) (ext : String) :
    (save_bytes_as_meme st data ext).2.index =
      dset st.index (md5_bytes_upper data)
        (md5_bytes_upper data ++ norm_ext ext) := rfl

theorem save_diskIndex (st : MemeState) (data : List Nat) (ext : String) :
    (save_bytes_as_meme st data ext).2.diskIndex =
      dset st.index (md5_bytes_upper data)
        (md5_bytes_upper data ++ norm_ext ext) := rfl

/-! ### Claim theorems -/

/-- C1: ingesting the same byte sequence twice yields the same state and
digest (the second ingest is a no-op on the whole state, in particular no
second file write happens); the digest returned is always the MD5 of the
bytes, whether or not the file already existed; and the blob file is
appended to the store only when its filename is not already present. -/
theorem put_put_idempotent (st : MemeState) (data : List Nat) (ext : String) :
    save_bytes_as_meme (save_bytes_as_meme st data ext).2 data ext =
      save_bytes_as_meme st data ext ∧
    (save_bytes_as_meme st data ext).1 = md5_bytes_upper data ∧
    (save_bytes_as_meme st data ext).2.memeDir =
      (if (List.lookup (md5_bytes_upper data ++ norm_ext ext)
            st.memeDir).isSome then st.memeDir
       else st.memeDir ++ [(md5_bytes_upper data ++ norm_ext ext, data)]) := by
  refine ⟨?_, rfl, save_memeDir st data ext⟩
  have hdir : (List.lookup (md5_bytes_upper data ++ norm_ext ext)
      (save_bytes_as_meme st data ext).2.memeDir).isSome = true := by
    rw [save_memeDir]
    by_cases h : (List.lookup (md5_bytes_upper data ++ norm_ext ext)
        st.memeDir).isSome = true
    · rwa [if_pos h]
    · rw [if_neg h]
      exact lookup_append_single _ _ _
  have h1 : (save_bytes_as_meme (save_bytes_as_meme st data ext).2
      data ext).2.memeDir = (save_bytes_as_meme st data ext).2.memeDir := by
    rw [save_memeDir ((save_bytes_as_meme st data ext).2), if_pos hdir]
  have h2 : (save_bytes_as_meme (save_bytes_as_meme st data ext).2
      data ext).2.index = (save_bytes_as_meme st data ext).2.index := by
    rw [save_index ((save_bytes_as_meme st data ext).2),
      save_index st, dset_dset]
  have h5 : (save_bytes_as_meme (save_bytes_as_meme st data ext).2
      data ext).2.diskIndex = (save_bytes_as_meme st data ext).2.diskIndex := by
    rw [save_diskIndex ((save_bytes_as_meme st data ext).2),
      save_index st, dset_dset, save_diskIndex st]
  rw [Prod.ext_iff]
  exact ⟨rfl, MemeState.ext' h1 h2 rfl rfl h5 rfl⟩

/-! ### Rebuild lemmas for C7 -/

theorem rebuild_aux_mono (fs : List (String × List Nat))
    (acc : List (String × String)) (k : String)
    (h : (List.lookup k acc).isSome = true) :
    (List.lookup k (fs.foldl rebuild_step acc)).isSome = true := by
  induction fs generalizing acc with
  | nil => exact h
  | cons p fs ih =>
    rw [List.foldl_cons]
    apply ih
    unfold rebuild_step
    by_cases hc : ((pyUpper (stemOf p.1)).toList.length == 32) = true
    · rw [if_pos hc, lookup_dset]
      by_cases hk : k = pyUpper (stemOf p.1)
      · rw [if_pos hk]
        rfl
      · rw [if_neg hk]
        exact h
    · rw [if_neg hc]
      exact h

theorem rebuild_aux_sound (fs : List (String × List Nat))
    (acc : List (String × String)) (k v : String)
    (h : List.lookup k (fs.foldl rebuild_step acc) = some v) :
    List.lookup k acc = some v ∨
      (∃ d, (v, d) ∈ fs) ∧ pyUpper (stemOf v) = k ∧
        (pyUpper (stemOf v)).toList.length = 32 := by
  induction fs generalizing acc with
  | nil => exact Or.inl h
  | cons p fs ih =>
    obtain ⟨n, dta⟩ := p
    rw [List.foldl_cons] at h
    rcases ih _ h with h' | h'
    · unfold rebuild_step at h'
      by_cases hc : ((pyUpper (stemOf (n, dta).1)).toList.length == 32) = true
      · rw [if_pos hc, lookup_dset] at h'
        by_cases hk : k = pyUpper (stemOf (n, dta).1)
        · rw [if_pos hk] at h'
          have hv : n = v := by injection h'
          subst hv
          refine Or.inr ⟨⟨dta, List.mem_cons_self _ _⟩, hk.symm, ?_⟩
          exact eq_of_beq hc
        · rw [if_neg hk] at h'
          exact Or.inl h'
      · rw [if_neg hc] at h'
        exact Or.inl h'
    · obtain ⟨⟨d, hd⟩, hst, hlen⟩ := h'
      exact Or.inr ⟨⟨d, List.mem_cons_of_mem _ hd⟩, hst, hlen⟩

theorem rebuild_aux_complete (fs : List (String × List Nat))
    (acc : List (String × String)) (n : String) (d : List Nat)
    (hmem : (n, d) ∈ fs) (hlen : (pyUpper (stemOf n)).toList.length = 32) :
    (List.lookup (pyUpper (stemOf n)) (fs.foldl rebuild_step acc)).isSome
      = true := by
  induction fs generalizing acc with
  | nil => exact absurd hmem (List.not_mem_nil _)
  | cons p fs ih =>
    rw [List.foldl_cons]
    rcases List.mem_cons.1 hmem with heq | hmem'
    · apply rebuild_aux_mono
      unfold rebuild_step
      rw [← heq]
      rw [if_pos (by rw [hlen]; rfl), lookup_dset, if_pos rfl]
      rfl
    · exact ih _ hmem'

theorem rebuild_aux_key_only :
    ∀ (fs fs' : List (String × List Nat)),
      fs.map Prod.fst = fs'.map Prod.fst →
      ∀ acc, fs.foldl rebuild_step acc = fs'.foldl rebuild_step acc := by
  intro fs
  induction fs with
  | nil =>
    intro fs' h acc
    cases fs' with
    | nil => rfl
    | cons q fs' => simp at h
  | cons p fs ih =>
    intro fs' h acc
    cases fs' with
    | nil => simp at h
    | cons q fs' =>
      simp only [List.map_cons, List.cons.injEq] at h
      rw [List.foldl_cons, List.foldl_cons]
      have hstep : rebuild_step acc p = rebuild_step acc q := by
        unfold rebuild_step
        rw [h.1]
      rw [hstep]
      exact ih fs' h.2 (rebuild_step acc q)

/-- C7: the rebuilt index contains exactly the directory's files whose
uppercased filename stem has exactly 32 characters (key = uppercased stem,
value = the filename); the file's byte content never enters the result
(shape-based filter, no re-hashing); hence rebuilding twice over an
unchanged directory gives the identical mapping. -/
theorem rebuild_shape_characterization (files : List (String × List Nat)) :
    (∀ k v, List.lookup k (rebuild_index files) = some v →
       (∃ d, (v, d) ∈ files) ∧ pyUpper (stemOf v) = k ∧
         (pyUpper (stemOf v)).toList.length = 32) ∧
    (∀ n d, (n, d) ∈ files → (pyUpper (stemOf n)).toList.length = 32 →
       (List.lookup (pyUpper (stemOf n)) (rebuild_index files)).isSome
         = true) ∧
    (∀ files', files.map Prod.fst = files'.map Prod.fst →
       rebuild_index files = rebuild_index files') ∧
    rebuild_index files = rebuild_index files := by
  refine ⟨?_, ?_, ?_, rfl⟩
  · intro k v h
    rcases rebuild_aux_sound files [] k v h with h' | h'
    · exact Option.noConfusion h'
    · exact h'
  · intro n d hmem hlen
    exact rebuild_aux_complete files [] n d hmem hlen
  · intro files' h
    exact rebuild_aux_key_only files files' h []

/-- Witness for C7: a directory with one file whose stem has 32
characters indexes that file. -/
theorem rebuild_shape_characterization_witness :
    (List.lookup
      (pyUpper (stemOf "00000000000000000000000000000000.png"))
      (rebuild_index
        [("00000000000000000000000000000000.png", [1])])).isSome = true :=
  (rebuild_shape_characterization
      [("00000000000000000000000000000000.png", [1])]).2.1
    "00000000000000000000000000000000.png" [1] (by decide) (by decide)

/-! ### Uppercasing lemmas for hex strings -/

theorem toUpper_toUpper_of_hex (c : Char) (h : hexChars.contains c = true) :
    c.toUpper.toUpper = c.toUpper := by
  have hall : ∀ x ∈ hexChars, x.toUpper.toUpper = x.toUpper := by decide
  exact hall c (by simpa using h)

theorem pyUpper_pyUpper_of_is32hex (q : String) (h : is32hex q = true) :
    pyUpper (pyUpper q) = pyUpper q := by
  unfold is32hex at h
  rw [Bool.and_eq_true] at h
  obtain ⟨hlen, hall⟩ := h
  rw [List.all_eq_true] at hall
  unfold pyUpper
  have hdata : (String.mk (q.toList.map Char.toUpper)).toList =
      q.toList.map Char.toUpper := rfl
  rw [hdata, List.map_map]
  refine congrArg String.mk (List.map_congr_left ?_)
  intro c hc
  exact toUpper_toUpper_of_hex c (hall c hc)

theorem pyUpper_ne_empty_of_is32hex (q : String) (h : is32hex q = true) :
    pyUpper q ≠ "" := by
  intro hh
  unfold is32hex at h
  rw [Bool.and_eq_true] at h
  obtain ⟨hlen, _⟩ := h
  unfold pyUpper at hh
  have hdata : q.toList.map Char.toUpper = ([] : List Char) := by
    have := congrArg String.toList hh
    simpa using this
  rw [List.map_eq_nil_iff] at hdata
  rw [hdata] at hlen
  exact absurd hlen (by decide)

/-- C4: a trimmed query of exactly 32 hex characters resolves to its
uppercased self without consulting the alias mapping (same result for any
alias table); any other query is looked up verbatim (trimmed,
case-sensitive) in the alias mapping; in particular every Digest (32 hex
characters, uppercase, no surrounding whitespace) is self-resolving. -/
theorem resolve_key_spec (st : MemeState) (q D : String) :
    (is32hex (pyStrip q) = true →
       resolve_key st q = some (pyUpper (pyStrip q)) ∧
       ∀ al, resolve_key { st with aliasMap := al } q =
         some (pyUpper (pyStrip q))) ∧
    (is32hex (pyStrip q) = false →
       resolve_key st q = List.lookup (pyStrip q) st.aliasMap) ∧
    (is32hex D = true → pyStrip D = D → pyUpper D = D →
       resolve_key st D = some D) := by
  refine ⟨?_, ?_, ?_⟩
  · intro h
    constructor
    · unfold resolve_key
      rw [if_pos h]
    · intro al
      unfold resolve_key
      rw [if_pos h]
  · intro h
    unfold resolve_key
    rw [if_neg (by simp [h])]
  · intro h1 h2 h3
    unfold resolve_key
    rw [h2, if_pos h1, h3]

/-- Witness for C4: a lowercase 32-hex query self-resolves, uppercased,
on the empty registry. -/
theorem resolve_key_spec_witness :
    resolve_key ⟨[], [], [], [], [], []⟩
      "00112233445566778899aabbccddeeff" =
      some (pyUpper (pyStrip "00112233445566778899aabbccddeeff")) :=
  ((resolve_key_spec ⟨[], [], [], [], [], []⟩
      "00112233445566778899aabbccddeeff" "").1 (by decide)).1

/-- C5: binding an alias to a digest not present in the index fails with
the not-found report and leaves the whole state (in particular the alias
table) unchanged; binding to a present digest overwrites any existing
binding for that alias (last-write-wins), persists the alias map, and
leaves the index unchanged. -/
theorem bind_name_spec (st : MemeState) (keyArg aliasArg : String) :
    (List.lookup (pyUpper (pyStrip keyArg)) st.index = none →
       meme_name st keyArg aliasArg =
         (st, Out.nameNotFound (pyUpper (pyStrip keyArg)))) ∧
    (∀ n, List.lookup (pyUpper (pyStrip keyArg)) st.index = some n →
       (meme_name st keyArg aliasArg).1.aliasMap =
         dset st.aliasMap (pyStrip aliasArg) (pyUpper (pyStrip keyArg)) ∧
       (meme_name st keyArg aliasArg).1.diskAlias =
         dset st.aliasMap (pyStrip aliasArg) (pyUpper (pyStrip keyArg)) ∧
       List.lookup (pyStrip aliasArg)
         (dset st.aliasMap (pyStrip aliasArg) (pyUpper (pyStrip keyArg))) =
           some (pyUpper (pyStrip keyArg)) ∧
       (meme_name st keyArg aliasArg).1.index = st.index ∧
       (meme_name st keyArg aliasArg).2 =
         Out.nameSet (pyStrip aliasArg) (pyUpper (pyStrip keyArg))) := by
  constructor
  · intro h
    unfold meme_name
    rw [if_pos h]
  · intro n hn
    have hne : ¬ (List.lookup (pyUpper (pyStrip keyArg)) st.index = none) := by
      rw [hn]
      exact fun hh => Option.noConfusion hh
    unfold meme_name
    rw [if_neg hne]
    refine ⟨rfl, rfl, ?_, rfl, rfl⟩
    rw [lookup_dset, if_pos rfl]

/-- Witness for C5: binding alias `cat` to an indexed digest records the
binding in the alias table. -/
theorem bind_name_spec_witness :
    (meme_name
      ⟨[], [("00000000000000000000000000000000",
             "00000000000000000000000000000000.png")], [], [], [], []⟩
      "00000000000000000000000000000000" "cat").1.aliasMap =
      dset [] (pyStrip "cat")
        (pyUpper (pyStrip "00000000000000000000000000000000")) :=
  ((bind_name_spec
      ⟨[], [("00000000000000000000000000000000",
             "00000000000000000000000000000000.png")], [], [], [], []⟩
      "00000000000000000000000000000000" "cat").2
    "00000000000000000000000000000000.png" (by decide)).1

/-! ### Projection equations for `meme_reload` -/

theorem reload_index (st : MemeState) :
    (meme_reload st).1.index = rebuild_index st.memeDir := rfl

theorem reload_diskIndex (st : MemeState) :
    (meme_reload st).1.diskIndex = rebuild_index st.memeDir := rfl

theorem reload_aliasMap (st : MemeState) :
    (meme_reload st).1.aliasMap =
      st.aliasMap.filter
        (fun p => !(List.lookup p.2 (rebuild_index st.memeDir)).isNone) := rfl

theorem reload_diskAlias (st : MemeState) :
    (meme_reload st).1.diskAlias =
      if (st.aliasMap.filter
            (fun p =>
              (List.lookup p.2 (rebuild_index st.memeDir)).isNone)).isEmpty
      then st.diskAlias
      else st.aliasMap.filter
        (fun p => !(List.lookup p.2 (rebuild_index st.memeDir)).isNone) := rfl

theorem reload_out (st : MemeState) :
    (meme_reload st).2 =
      Out.reloadDone (rebuild_index st.memeDir).length
        (st.aliasMap.filter
          (fun p =>
            (List.lookup p.2 (rebuild_index st.memeDir)).isNone)).length := rfl

/-- C6: after a reload every remaining alias maps to a digest present in
the rebuilt index; the index is the directory rebuild and is persisted;
the pruned alias map is persisted whenever at least one alias was
dropped; and the reported counts are the rebuilt index size and the
number of aliases pruned (old alias count minus remaining alias count). -/
theorem reload_invariant (st : MemeState) :
    (∀ p ∈ (meme_reload st).1.aliasMap,
       (List.lookup p.2 ((meme_reload st).1.index)).isSome = true) ∧
    (meme_reload st).1.index = rebuild_index st.memeDir ∧
    (meme_reload st).1.diskIndex = (meme_reload st).1.index ∧
    ((st.aliasMap.filter
        (fun p => (List.lookup p.2 (rebuild_index st.memeDir)).isNone)) ≠ []
       → (meme_reload st).1.diskAlias = (meme_reload st).1.aliasMap) ∧
    (meme_reload st).2 =
      Out.reloadDone ((meme_reload st).1.index).length
        (st.aliasMap.length - ((meme_reload st).1.aliasMap).length) := by
  refine ⟨?_, rfl, rfl, ?_, ?_⟩
  · intro p hp
    rw [reload_aliasMap] at hp
    rw [reload_index]
    have hcond := (List.mem_filter.1 hp).2
    cases hl : List.lookup p.2 (rebuild_index st.memeDir) with
    | none => rw [hl] at hcond; exact absurd hcond (by decide)
    | some v => rfl
  · intro h
    rw [reload_diskAlias, reload_aliasMap,
      if_neg (by simpa [List.isEmpty_iff] using h)]
  · rw [reload_out, reload_index, reload_aliasMap]
    have hlen := length_filter_not st.aliasMap
      (fun p => (List.lookup p.2 (rebuild_index st.memeDir)).isNone)
    congr 1
    omega

/-- Witness for C6: on a registry with one stored blob, one live alias
and one orphaned alias, the surviving alias's digest is indexed after the
reload. -/
theorem reload_invariant_witness :
    (List.lookup "00000000000000000000000000000000"
      ((meme_reload
        ⟨[("00000000000000000000000000000000.png", [1])], [],
         [("a", "00000000000000000000000000000000"),
          ("b", "FFFFFFFFFFFFFFFFFFFFFFFFFFFFFFFF")], [], [], []⟩).1.index)
      ).isSome = true :=
  (reload_invariant
    ⟨[("00000000000000000000000000000000.png", [1])], [],
     [("a", "00000000000000000000000000000000"),
      ("b", "FFFFFFFFFFFFFFFFFFFFFFFFFFFFFFFF")], [], [], []⟩).1
    ("a", "00000000000000000000000000000000") (by decide)

/-- C10: a syntactically valid 32-hex query whose digest is absent from
the index never reports not-found: `show` succeeds, reporting the digest
with an empty filename, and `del` reports the deletion-failure message
(distinct from not-found) leaving the state unchanged. -/
theorem show_del_absent_digest (st : MemeState) (q : String)
    (hq : pyStrip q = q) (h32 : is32hex q = true)
    (habs : List.lookup (pyUpper q) st.index = none) :
    meme_show st q =
      Out.showInfo (pyUpper q) (reverse_alias st.aliasMap (pyUpper q)) "" ∧
    meme_del st q = (st, Out.delFail q) := by
  have hres : resolve_key st (pyStrip q) = some (pyUpper q) := by
    unfold resolve_key
    rw [hq, hq, if_pos h32]
  have hne : ¬ (pyUpper q = "") := pyUpper_ne_empty_of_is32hex q h32
  have hUU : pyUpper (pyUpper q) = pyUpper q :=
    pyUpper_pyUpper_of_is32hex q h32
  have hdel : delete_key st (pyUpper q) = (false, st) := by
    unfold delete_key
    rw [hUU, habs]
  constructor
  · unfold meme_show
    rw [hres, hq]
    show (if pyUpper q = "" then Out.showNotFound q
          else Out.showInfo (pyUpper q) (reverse_alias st.aliasMap (pyUpper q))
            ((List.lookup (pyUpper q) st.index).getD "")) = _
    rw [if_neg hne, habs]
    rfl
  · unfold meme_del
    rw [hres, hq]
    show (if pyUpper q = "" then (st, Out.delNotFound q)
          else if (delete_key st (pyUpper q)).1 = true then
            ((delete_key st (pyUpper q)).2, Out.delOk q (pyUpper q))
          else ((delete_key st (pyUpper q)).2, Out.delFail q)) = _
    rw [if_neg hne, hdel]
    rfl

/-- C2 (amended): with distinct alias keys, an alias `A` (not itself
32 hex characters, no surrounding whitespace) bound to digest `D`
(uppercase) whose index entry holds a nonempty filename: deleting `D`
succeeds (also when the blob file is absent from the directory — nothing
here assumes the file exists), removes the index entry for `D`, removes
every alias pointing at `D` so that `A` no longer resolves, and persists
both the index and the alias map. -/
theorem delete_removes_digest_and_aliases (st : MemeState) (A D n : String)
    (hU : st.aliasMap.Pairwise (fun p q => p.1 ≠ q.1))
    (hA : List.lookup A st.aliasMap = some D)
    (hhex : is32hex A = false)
    (hAtrim : pyStrip A = A)
    (hD : pyUpper D = D)
    (hIdx : List.lookup D st.index = some n)
    (hn : n ≠ "") :
    (delete_key st D).1 = true ∧
    List.lookup D (delete_key st D).2.index = none ∧
    (∀ p ∈ (delete_key st D).2.aliasMap, p.2 ≠ D) ∧
    resolve_key (delete_key st D).2 A = none ∧
    (delete_key st D).2.diskIndex = (delete_key st D).2.index ∧
    (delete_key st D).2.diskAlias = (delete_key st D).2.aliasMap := by
  have hdel : delete_key st D =
      (true,
       { st with
          memeDir := dpop st.memeDir n,
          index := dpop st.index D,
          diskIndex := dpop st.index D,
          aliasMap := st.aliasMap.filter (fun p => !(p.2 == D)),
          diskAlias :=
            if (st.aliasMap.filter (fun p => p.2 == D)).isEmpty then
              st.diskAlias
            else st.aliasMap.filter (fun p => !(p.2 == D)) }) := by
    unfold delete_key
    rw [hD, hIdx]
    show (if n = "" then (false, st)
          else (true,
            { st with
               memeDir := dpop st.memeDir n,
               index := dpop st.index D,
               diskIndex := dpop st.index D,
               aliasMap := st.aliasMap.filter (fun p => !(p.2 == D)),
               diskAlias :=
                 if (st.aliasMap.filter (fun p => p.2 == D)).isEmpty then
                   st.diskAlias
                 else st.aliasMap.filter (fun p => !(p.2 == D)) })) = _
    rw [if_neg hn]
  have hbad : ¬ ((st.aliasMap.filter (fun p => p.2 == D)).isEmpty = true) := by
    have hmem : (A, D) ∈ st.aliasMap := lookup_mem _ _ _ hA
    have hmf : (A, D) ∈ st.aliasMap.filter (fun p => p.2 == D) := by
      rw [List.mem_filter]
      exact ⟨hmem, by simp⟩
    intro hh
    rw [List.isEmpty_iff] at hh
    rw [hh] at hmf
    exact absurd hmf (List.not_mem_nil _)
  refine ⟨?_, ?_, ?_, ?_, ?_, ?_⟩
  · rw [hdel]
  · rw [hdel]
    exact lookup_dpop_self _ _
  · intro p hp
    rw [hdel] at hp
    have hp' : p ∈ st.aliasMap.filter (fun p => !(p.2 == D)) := hp
    have hcond := (List.mem_filter.1 hp').2
    simpa using hcond
  · unfold resolve_key
    rw [hAtrim, if_neg (by simp [hhex])]
    have hmap : (delete_key st D).2.aliasMap =
        st.aliasMap.filter (fun p => !(p.2 == D)) := by rw [hdel]
    rw [hmap]
    exact lookup_filter_of_unique _ _ _ hU hA
  · rw [hdel]
  · rw [hdel]
    show (if (st.aliasMap.filter (fun p => p.2 == D)).isEmpty then
            st.diskAlias
          else st.aliasMap.filter (fun p => !(p.2 == D))) =
        st.aliasMap.filter (fun p => !(p.2 == D))
    rw [if_neg hbad]

/-- Witness for C2's amended theorem: alias `a` bound to an all-`B`
digest whose blob file is missing from the directory; the delete still
succeeds and `a` stops resolving. -/
theorem delete_removes_digest_and_aliases_witness :
    (delete_key
      ⟨[], [("BBBBBBBBBBBBBBBBBBBBBBBBBBBBBBBB", "f.png")],
       [("a", "BBBBBBBBBBBBBBBBBBBBBBBBBBBBBBBB")], [], [], []⟩
      "BBBBBBBBBBBBBBBBBBBBBBBBBBBBBBBB").1 = true ∧
    resolve_key
      (delete_key
        ⟨[], [("BBBBBBBBBBBBBBBBBBBBBBBBBBBBBBBB", "f.png")],
         [("a", "BBBBBBBBBBBBBBBBBBBBBBBBBBBBBBBB")], [], [], []⟩
        "BBBBBBBBBBBBBBBBBBBBBBBBBBBBBBBB").2 "a" = none :=
  ⟨(delete_removes_digest_and_aliases
      ⟨[], [("BBBBBBBBBBBBBBBBBBBBBBBBBBBBBBBB", "f.png")],
       [("a", "BBBBBBBBBBBBBBBBBBBBBBBBBBBBBBBB")], [], [], []⟩
      "a" "BBBBBBBBBBBBBBBBBBBBBBBBBBBBBBBB" "f.png"
      (by simp) (by decide) (by decide) (by decide) (by decide) (by decide)
      (by decide)).1,
   (delete_removes_digest_and_aliases
      ⟨[], [("BBBBBBBBBBBBBBBBBBBBBBBBBBBBBBBB", "f.png")],
       [("a", "BBBBBBBBBBBBBBBBBBBBBBBBBBBBBBBB")], [], [], []⟩
      "a" "BBBBBBBBBBBBBBBBBBBBBBBBBBBBBBBB" "f.png"
      (by simp) (by decide) (by decide) (by decide) (by decide) (by decide)
      (by decide)).2.2.2.1⟩

/-- C2 counterexample: an alias that is itself 32 hex characters
(`A` = 32 `A`s) bound to digest `D` = 32 `B`s.  Deleting `D` succeeds and
removes the alias entry, yet `resolve(A)` is NOT none afterwards — the
query self-resolves as a digest — refuting the claim's
`resolve(A) -> none` for such aliases. -/
theorem delete_alias_still_resolves_counterexample :
    List.lookup "AAAAAAAAAAAAAAAAAAAAAAAAAAAAAAAA"
      (⟨[("BBBBBBBBBBBBBBBBBBBBBBBBBBBBBBBB.png", [0])],
        [("BBBBBBBBBBBBBBBBBBBBBBBBBBBBBBBB",
          "BBBBBBBBBBBBBBBBBBBBBBBBBBBBBBBB.png")],
        [("AAAAAAAAAAAAAAAAAAAAAAAAAAAAAAAA",
          "BBBBBBBBBBBBBBBBBBBBBBBBBBBBBBBB")], [], [], []⟩ :
          MemeState).aliasMap =
      some "BBBBBBBBBBBBBBBBBBBBBBBBBBBBBBBB" ∧
    (delete_key
      ⟨[("BBBBBBBBBBBBBBBBBBBBBBBBBBBBBBBB.png", [0])],
       [("BBBBBBBBBBBBBBBBBBBBBBBBBBBBBBBB",
         "BBBBBBBBBBBBBBBBBBBBBBBBBBBBBBBB.png")],
       [("AAAAAAAAAAAAAAAAAAAAAAAAAAAAAAAA",
         "BBBBBBBBBBBBBBBBBBBBBBBBBBBBBBBB")], [], [], []⟩
      "BBBBBBBBBBBBBBBBBBBBBBBBBBBBBBBB").1 = true ∧
    (delete_key
      ⟨[("BBBBBBBBBBBBBBBBBBBBBBBBBBBBBBBB.png", [0])],
       [("BBBBBBBBBBBBBBBBBBBBBBBBBBBBBBBB",
         "BBBBBBBBBBBBBBBBBBBBBBBBBBBBBBBB.png")],
       [("AAAAAAAAAAAAAAAAAAAAAAAAAAAAAAAA",
         "BBBBBBBBBBBBBBBBBBBBBBBBBBBBBBBB")], [], [], []⟩
      "BBBBBBBBBBBBBBBBBBBBBBBBBBBBBBBB").2.aliasMap = [] ∧
    resolve_key
      (delete_key
        ⟨[("BBBBBBBBBBBBBBBBBBBBBBBBBBBBBBBB.png", [0])],
         [("BBBBBBBBBBBBBBBBBBBBBBBBBBBBBBBB",
           "BBBBBBBBBBBBBBBBBBBBBBBBBBBBBBBB.png")],
         [("AAAAAAAAAAAAAAAAAAAAAAAAAAAAAAAA",
           "BBBBBBBBBBBBBBBBBBBBBBBBBBBBBBBB")], [], [], []⟩
        "BBBBBBBBBBBBBBBBBBBBBBBBBBBBBBBB").2
      "AAAAAAAAAAAAAAAAAAAAAAAAAAAAAAAA" ≠ none := by
  refine ⟨by decide, by decide, by decide, by decide⟩

/-- Witness for C10: showing and deleting an absent lowercase 32-hex
digest on the empty registry. -/
theorem show_del_absent_digest_witness :
    meme_show ⟨[], [], [], [], [], []⟩
      "00112233445566778899aabbccddeeff" =
      Out.showInfo (pyUpper "00112233445566778899aabbccddeeff")
        (reverse_alias [] (pyUpper "00112233445566778899aabbccddeeff")) "" ∧
    meme_del ⟨[], [], [], [], [], []⟩
      "00112233445566778899aabbccddeeff" =
      (⟨[], [], [], [], [], []⟩,
       Out.delFail "00112233445566778899aabbccddeeff") :=
  show_del_absent_digest ⟨[], [], [], [], [], []⟩
    "00112233445566778899aabbccddeeff" (by decide) (by decide) (by decide)

/-! ### Handler lemmas for C3, C8, C9 -/

theorem add_awaiting (st : MemeState) (img : ImageSeg) :
    (add_from_image_segment st img).2.awaiting = st.awaiting := by
  unfold add_from_image_segment
  cases hd : img.data with
  | none => rfl
  | some p =>
    obtain ⟨bytes, ext⟩ := p
    rfl

theorem capture_awaiting (st : MemeState) (gu : String × String)
    (img : ImageSeg) :
    (capture_branch st gu img).1.awaiting = dpop st.awaiting gu := by
  show dpop (add_from_image_segment st img).2.awaiting gu = _
  rw [add_awaiting]

theorem repost_branch_state (st : MemeState) (segs : List Seg) :
    (repost_branch st segs).1 = st := by
  unfold repost_branch
  cases h : repost_scan st.index st.memeDir segs <;> rfl

theorem unarmed_message (st : MemeState) (ev : GEvent) (now : Nat)
    (h : List.lookup ev.gu st.awaiting = none) :
    on_group_message st ev now = repost_branch st ev.segs := by
  unfold on_group_message
  rw [h]

/-- C3: arming a session sets its expiry to `now + 60`; an armed
(nonzero-expiry) session receiving an image at or before the expiry takes
the capture branch — the session entry is consumed whether the ingest
succeeds or fails, the event is stopped, and the output is a capture
report (success or failure), never a repost; an armed session receiving
an image strictly after the expiry has its stale entry dropped and the
event is handled exactly as a plain repost lookup. -/
theorem session_single_shot_and_expiry (st : MemeState) (ev : GEvent)
    (now e : Nat) (img : ImageSeg)
    (hA : List.lookup ev.gu st.awaiting = some e)
    (he : e ≠ 0)
    (hImg : extract_first_image ev.segs = some img) :
    List.lookup ev.gu ((meme_add_arm st ev.gu now).1.awaiting) =
      some (now + 60) ∧
    (now ≤ e →
       List.lookup ev.gu ((on_group_message st ev now).1.awaiting) = none ∧
       (on_group_message st ev now).2.2 = true ∧
       ((∃ k a, (on_group_message st ev now).2.1 = [Out.addedOk k a]) ∨
        (∃ m, (on_group_message st ev now).2.1 = [Out.addFail m]))) ∧
    (e < now →
       on_group_message st ev now =
         repost_branch { st with awaiting := dpop st.awaiting ev.gu }
           ev.segs ∧
       List.lookup ev.gu ((on_group_message st ev now).1.awaiting) = none) := by
  refine ⟨?_, ?_, ?_⟩
  · show List.lookup ev.gu (dset st.awaiting ev.gu (now + 60)) = _
    rw [lookup_dset, if_pos rfl]
  · intro hnow
    have hog : on_group_message st ev now = capture_branch st ev.gu img := by
      unfold on_group_message
      rw [hA]
      show (if e ≠ 0 ∧ now ≤ e then
              (match extract_first_image ev.segs with
               | some img => capture_branch st ev.gu img
               | none => repost_branch st ev.segs)
            else if e ≠ 0 ∧ e < now then
              repost_branch { st with awaiting := dpop st.awaiting ev.gu }
                ev.segs
            else repost_branch st ev.segs) = _
      rw [if_pos ⟨he, hnow⟩, hImg]
    refine ⟨?_, ?_, ?_⟩
    · rw [hog, capture_awaiting]
      exact lookup_dpop_self _ _
    · rw [hog]
      rfl
    · rw [hog]
      cases himg : img.data with
      | some p =>
        obtain ⟨bytes, ext⟩ := p
        have hcap : capture_branch st ev.gu img =
            ({ (save_bytes_as_meme st bytes ext).2 with
                awaiting :=
                  dpop (save_bytes_as_meme st bytes ext).2.awaiting ev.gu },
             [Out.addedOk (save_bytes_as_meme st bytes ext).1
               (reverse_alias
                 ({ (save_bytes_as_meme st bytes ext).2 with
                     awaiting :=
                       dpop (save_bytes_as_meme st bytes ext).2.awaiting
                         ev.gu }).aliasMap
                 (save_bytes_as_meme st bytes ext).1)],
             true) := by
          unfold capture_branch add_from_image_segment
          rw [himg]
          rfl
        exact Or.inl ⟨_, _, by rw [hcap]⟩
      | none =>
        have hcap : capture_branch st ev.gu img =
            ({ st with awaiting := dpop st.awaiting ev.gu },
             [Out.addFail "no usable image source"], true) := by
          unfold capture_branch add_from_image_segment
          rw [himg]
          rfl
        exact Or.inr ⟨_, by rw [hcap]⟩
  · intro hlt
    have hnot : ¬ (e ≠ 0 ∧ now ≤ e) := by
      intro hh
      omega
    have hog2 : on_group_message st ev now =
        repost_branch { st with awaiting := dpop st.awaiting ev.gu }
          ev.segs := by
      unfold on_group_message
      rw [hA]
      show (if e ≠ 0 ∧ now ≤ e then
              (match extract_first_image ev.segs with
               | some img => capture_branch st ev.gu img
               | none => repost_branch st ev.segs)
            else if e ≠ 0 ∧ e < now then
              repost_branch { st with awaiting := dpop st.awaiting ev.gu }
                ev.segs
            else repost_branch st ev.segs) = _
      rw [if_neg hnot, if_pos ⟨he, hlt⟩]
    refine ⟨hog2, ?_⟩
    rw [hog2, repost_branch_state]
    exact lookup_dpop_self _ _

/-- Witness for C3: a session armed at expiry 100, an event carrying one
image segment with no resolvable data, arriving at time 50 (in-window):
the entry is consumed, the event stopped, and a capture report emitted. -/
theorem session_single_shot_and_expiry_witness :
    List.lookup ("g", "u")
      ((on_group_message
        ⟨[], [], [], [(("g", "u"), 100)], [], []⟩
        ⟨("g", "u"), [Seg.image ⟨"x.png", none⟩]⟩ 50).1.awaiting) = none ∧
    (on_group_message
      ⟨[], [], [], [(("g", "u"), 100)], [], []⟩
      ⟨("g", "u"), [Seg.image ⟨"x.png", none⟩]⟩ 50).2.2 = true :=
  ⟨((session_single_shot_and_expiry
      ⟨[], [], [], [(("g", "u"), 100)], [], []⟩
      ⟨("g", "u"), [Seg.image ⟨"x.png", none⟩]⟩ 50 100 ⟨"x.png", none⟩
      (by decide) (by decide) (by decide)).2.1 (by decide)).1,
   ((session_single_shot_and_expiry
      ⟨[], [], [], [(("g", "u"), 100)], [], []⟩
      ⟨("g", "u"), [Seg.image ⟨"x.png", none⟩]⟩ 50 100 ⟨"x.png", none⟩
      (by decide) (by decide) (by decide)).2.1 (by decide)).2.1⟩

/-- C8: with no armed session for the sender, the handler's emitted
output and stop flag do not depend on the alias table in any way; they
are exactly the repost-scan result over the index and the blob directory
(a repost of the stored filename on a hit, silence otherwise); and the
scan of an image segment looks up the uppercased stem of the segment's
`file` identifier directly in the index. -/
theorem repost_lookup_spec (st : MemeState) (ev : GEvent) (now : Nat)
    (h : List.lookup ev.gu st.awaiting = none) :
    (∀ al, (on_group_message { st with aliasMap := al } ev now).2 =
       (on_group_message st ev now).2) ∧
    (on_group_message st ev now).2 =
      (match repost_scan st.index st.memeDir ev.segs with
       | some name => ([Out.repost name], true)
       | none => ([], false)) ∧
    (∀ f d rest,
       repost_scan st.index st.memeDir (Seg.image ⟨f, d⟩ :: rest) =
         (match List.lookup (pyUpper (stemOf f)) st.index with
          | none => repost_scan st.index st.memeDir rest
          | some name =>
            if name = "" then repost_scan st.index st.memeDir rest
            else if (List.lookup name st.memeDir).isSome then some name
            else repost_scan st.index st.memeDir rest)) := by
  refine ⟨?_, ?_, ?_⟩
  · intro al
    rw [unarmed_message { st with aliasMap := al } ev now h,
      unarmed_message st ev now h]
    unfold repost_branch
    rw [show ({ st with aliasMap := al } : MemeState).index = st.index
        from rfl,
      show ({ st with aliasMap := al } : MemeState).memeDir = st.memeDir
        from rfl]
    cases hscan : repost_scan st.index st.memeDir ev.segs <;> rfl
  · rw [unarmed_message st ev now h]
    unfold repost_branch
    cases hscan : repost_scan st.index st.memeDir ev.segs <;> rfl
  · intro f d rest
    rfl

/-- Witness for C8: an unarmed sender's image whose stem matches an index
entry with the blob present is reposted. -/
theorem repost_lookup_spec_witness :
    (on_group_message
      ⟨[("00000000000000000000000000000000.png", [1])],
       [("00000000000000000000000000000000",
         "00000000000000000000000000000000.png")], [], [], [], []⟩
      ⟨("g", "u"),
       [Seg.image ⟨"00000000000000000000000000000000.jpg", none⟩]⟩ 5).2 =
      (match repost_scan
          (⟨[("00000000000000000000000000000000.png", [1])],
            [("00000000000000000000000000000000",
              "00000000000000000000000000000000.png")], [], [], [], []⟩ :
              MemeState).index
          (⟨[("00000000000000000000000000000000.png", [1])],
            [("00000000000000000000000000000000",
              "00000000000000000000000000000000.png")], [], [], [], []⟩ :
              MemeState).memeDir
          [Seg.image ⟨"00000000000000000000000000000000.jpg", none⟩] with
       | some name => ([Out.repost name], true)
       | none => ([], false)) :=
  (repost_lookup_spec
    ⟨[("00000000000000000000000000000000.png", [1])],
     [("00000000000000000000000000000000",
       "00000000000000000000000000000000.png")], [], [], [], []⟩
    ⟨("g", "u"),
     [Seg.image ⟨"00000000000000000000000000000000.jpg", none⟩]⟩ 5
    (by decide)).2.1

/-- C9: on the pure repost path (no armed session) the handler never
mutates the state; a scanned image segment whose index entry names a file
missing from the blob directory is skipped silently and the scan
continues with the remaining segments; and any reposted filename is
present in the blob directory at event time. -/
theorem repost_requires_file (st : MemeState) (ev : GEvent) (now : Nat) :
    (List.lookup ev.gu st.awaiting = none →
       (on_group_message st ev now).1 = st) ∧
    (∀ idx dir img rest name,
       List.lookup (pyUpper (stemOf (ImageSeg.file img))) idx = some name →
       name ≠ "" →
       List.lookup name dir = none →
       repost_scan idx dir (Seg.image img :: rest) =
         repost_scan idx dir rest) ∧
    (∀ idx dir segs name,
       repost_scan idx dir segs = some name →
       (List.lookup name dir).isSome = true) := by
  refine ⟨?_, ?_, ?_⟩
  · intro h
    rw [unarmed_message st ev now h, repost_branch_state]
  · intro idx dir img rest name h1 h2 h3
    show (match List.lookup (pyUpper (stemOf img.file)) idx with
          | none => repost_scan idx dir rest
          | some nm =>
            if nm = "" then repost_scan idx dir rest
            else if (List.lookup nm dir).isSome then some nm
            else repost_scan idx dir rest) = repost_scan idx dir rest
    rw [h1]
    show (if name = "" then repost_scan idx dir rest
          else if (List.lookup name dir).isSome then some name
          else repost_scan idx dir rest) = _
    rw [if_neg h2, h3]
    show (if (none : Option (List Nat)).isSome then some name
          else repost_scan idx dir rest) = _
    rw [if_neg (by decide)]
  · intro idx dir segs
    induction segs with
    | nil =>
      intro name h
      exact Option.noConfusion h
    | cons sg rest ih =>
      intro name h
      cases sg with
      | other => exact ih name h
      | image img =>
        revert h
        show (match List.lookup (pyUpper (stemOf img.file)) idx with
              | none => repost_scan idx dir rest
              | some nm =>
                if nm = "" then repost_scan idx dir rest
                else if (List.lookup nm dir).isSome then some nm
                else repost_scan idx dir rest) = some name → _
        cases hl : List.lookup (pyUpper (stemOf img.file)) idx with
        | none =>
          intro h
          exact ih name h
        | some nm =>
          intro h
          have h' : (if nm = "" then repost_scan idx dir rest
              else if (List.lookup nm dir).isSome then some nm
              else repost_scan idx dir rest) = some name := h
          by_cases h2 : nm = ""
          · rw [if_pos h2] at h'
            exact ih name h'
          · rw [if_neg h2] at h'
            by_cases h3 : (List.lookup nm dir).isSome = true
            · rw [if_pos h3] at h'
              have hnm : nm = name := by injection h'
              rw [← hnm]
              exact h3
            · rw [if_neg h3] at h'
              exact ih name h'

/-- Witness for C9: with no armed session, handling an image event whose
index entry names a missing blob leaves the state untouched. -/
theorem repost_requires_file_witness :
    (on_group_message
      ⟨[], [("00000000000000000000000000000000",
             "00000000000000000000000000000000.png")], [], [], [], []⟩
      ⟨("g", "u"),
       [Seg.image ⟨"00000000000000000000000000000000.jpg", none⟩]⟩ 7).1 =
      ⟨[], [("00000000000000000000000000000000",
             "00000000000000000000000000000000.png")], [], [], [], []⟩ :=
  (repost_requires_file
    ⟨[], [("00000000000000000000000000000000",
           "00000000000000000000000000000000.png")], [], [], [], []⟩
    ⟨("g", "u"),
     [Seg.image ⟨"00000000000000000000000000000000.jpg", none⟩]⟩ 7).1
    (by decide)

end MemeEcho

